import Mathlib

/-!
Shallow embedding of the Bloom's-indicator voting system
(`src/indicator_full_system_gui.py`).

Python strings are modelled as lists of characters (`Str`), so that the
Python string operations `.strip()` and `.lower()` become executable Lean
functions on `List Char`.  The SQLite tables `bloom_words`, `votes` and
`questions` are modelled as lists of records inside a `DB` state, with
`AUTOINCREMENT` row ids modelled by `nextWordId` (SQLite row ids start
at 1).  A `SELECT ... fetchone()` without `ORDER BY` returns the first
row in rowid (= insertion) order, modelled by `List.find?` over the
insertion-ordered list.  Timestamps (`created_at`) play no role in any
property considered here and are omitted from the record model.
-/

/-- A Python string: a sequence of characters. -/
abbrev Str := List Char

/-- The characters removed by Python's `str.strip()` with no argument
(ASCII whitespace, as relevant to this program's inputs). -/
def pyIsSpace (c : Char) : Bool :=
  c == ' ' || c == '\t' || c == '\n' || c == '\r' || c == '\x0b' || c == '\x0c'

/-- Python `s.strip()`: remove leading and trailing whitespace. -/
def pyStrip (s : Str) : Str :=
  (s.dropWhile pyIsSpace).rdropWhile pyIsSpace

/-- Python `s.lower()` (ASCII case folding, as relevant here). -/
def pyLower (s : Str) : Str :=
  s.map Char.toLower

/-- Row of the `bloom_words` table (line 59-68 of the source):
`id`, `word`, `suggested_level`, `vote_count`, `approved`.
`created_at` is omitted (never read by any modelled operation). -/
structure WordRecord where
  id : Nat
  word : Str
  suggested_level : Str
  vote_count : Nat
  approved : Bool
deriving DecidableEq

/-- Row of the `votes` table (line 70-77 of the source): `user_id`, `word_id`.
The surrogate `id` column is never read and is omitted. -/
structure VoteRecord where
  user_id : Nat
  word_id : Nat
deriving DecidableEq

/-- Row of the `questions` table (line 79-86 of the source).
`created_at` is omitted (never read). -/
structure QuestionEntry where
  question_text : Str
  predicted_level : Str
deriving DecidableEq

/-- The durable store: the three tables the claims are about, plus the
next fresh `bloom_words` rowid. -/
structure DB where
  bloom_words : List WordRecord
  votes : List VoteRecord
  questions : List QuestionEntry
  nextWordId : Nat
deriving DecidableEq

/-- The store produced by the `CREATE TABLE IF NOT EXISTS` setup on a
fresh database file: all tables empty, first rowid 1. -/
def initDB : DB := ⟨[], [], [], 1⟩

/-- The outcome of `submit_word` (lines 118-168), one constructor per
distinct return message of the source. -/
inductive SubmitResult where
  /-- Return at line 121: no identified user. -/
  | missingUser
  /-- Return at line 138: this user already voted for this word record. -/
  | duplicateVote
  /-- Return at line 154: the reached-10-votes APPROVED message. -/
  | approvedNow (word level : Str)
  /-- Return at line 156: vote recorded, current count reported. -/
  | voteRecorded (word : Str) (count : Nat)
  /-- Return at line 168: new word added and vote recorded. -/
  | created (word : Str)
deriving DecidableEq

/-- The outcome of `check_or_predict_word` (lines 101-113). -/
inductive CheckResult where
  /-- Return at line 109: word already approved at the stored level. -/
  | approvedAt (word level : Str)
  /-- Return at line 113: advisory NLP suggestion from the classifier. -/
  | advisory (pred : Str)
deriving DecidableEq

/-- The outcome of the Predict Question mode (lines 193-213). -/
inductive QuestionResult where
  /-- The warning branch at line 213: blank input. -/
  | emptyInput
  /-- The success branch: predicted Bloom level. -/
  | predicted (level : Str)
deriving DecidableEq

/-- The `WHERE word=? AND suggested_level=?` filter of the `SELECT` at
lines 123-127 of the source (SQLite `=` on TEXT: exact, case-sensitive). -/
def keyMatch (word level : Str) (r : WordRecord) : Bool :=
  r.word == word && r.suggested_level == level

/-- The `WHERE user_id=? AND word_id=?` filter of the `SELECT` at
lines 132-135 of the source. -/
def voteMatch (uid wid : Nat) (v : VoteRecord) : Bool :=
  v.user_id == uid && v.word_id == wid

/-- The `WHERE word=? AND approved=1` filter of the `SELECT` at
lines 102-105 of the source. -/
def approvedMatch (word : Str) (r : WordRecord) : Bool :=
  r.word == word && r.approved

/-- A `bloom_words` row after the `UPDATE` of lines 145-149 of the
source, applied to the row `r` the `SELECT` returned: the count is
incremented and `approved` recomputed against the threshold 10. -/
def bumped (r : WordRecord) : WordRecord :=
  { r with vote_count := r.vote_count + 1,
           approved := decide (10 ≤ r.vote_count + 1) }

/-- The row-level effect of `UPDATE bloom_words ... WHERE id=?`: only
the row whose id matches is replaced. -/
def updWord (r s : WordRecord) : WordRecord :=
  if s.id == r.id then bumped r else s

/-- The store after the no-row branch of `submit_word` (lines 158-168 of
the source): insert a fresh `bloom_words` row with `vote_count = 1` and
the `approved` column default 0, then record the caller's vote for the
fresh rowid (`last_insert_rowid`). -/
def createdDB (word level : Str) (uid : Nat) (db : DB) : DB :=
  { db with
    bloom_words := db.bloom_words ++
      [{ id := db.nextWordId, word := word, suggested_level := level,
         vote_count := 1, approved := false }],
    votes := db.votes ++ [⟨uid, db.nextWordId⟩],
    nextWordId := db.nextWordId + 1 }

/-- The store after the accepted-vote branch of `submit_word`
(lines 140-151 of the source): insert the vote, then
`UPDATE bloom_words SET vote_count = r.vote_count + 1,
approved = (vote_count >= 10) WHERE id = r.id`. -/
def updatedDB (uid : Nat) (r : WordRecord) (db : DB) : DB :=
  { db with
    votes := db.votes ++ [⟨uid, r.id⟩],
    bloom_words := db.bloom_words.map (updWord r) }

/-- `submit_word(word, level, user_id)`, lines 118-168 of the source.

* Line 120: `if not user_id` — `user_id` is `None` when nobody is logged
  in (modelled `none`); Python falsiness also covers the integer 0
  (SQLite ids are in fact always >= 1).
* Lines 123-127: `SELECT id, vote_count FROM bloom_words WHERE word=?
  AND suggested_level=?` with `fetchone` — first matching row.
* Lines 132-138: duplicate-vote check against `votes`.
* Lines 140-156: accepted vote — state `updatedDB`; the source computes
  `approved = 1 if vote_count >= 10 else 0` and returns the APPROVED
  message exactly when that recomputed flag is set.
* Lines 158-168: no row yet — state `createdDB`. -/
def submit_word (word level : Str) (user_id : Option Nat) (db : DB) :
    SubmitResult × DB :=
  match user_id with
  | none => (.missingUser, db)
  | some uid =>
    if uid = 0 then (.missingUser, db)
    else
      match db.bloom_words.find? (keyMatch word level) with
      | some r =>
        if db.votes.any (voteMatch uid r.id) then
          (.duplicateVote, db)
        else if 10 ≤ r.vote_count + 1 then
          (.approvedNow word level, updatedDB uid r db)
        else
          (.voteRecorded word (r.vote_count + 1), updatedDB uid r db)
      | none =>
        (.created word, createdDB word level uid db)

/-- `check_or_predict_word(word)`, lines 101-113 of the source:
`SELECT suggested_level FROM bloom_words WHERE word=? AND approved=1`
with `fetchone`; on a hit, report the stored level; otherwise run the
classifier (`classify`, the opaque model) on the raw input.
Note the input is used exactly as given — the source performs no
normalization before the lookup. -/
def check_or_predict_word (classify : Str → Str) (db : DB) (word : Str) :
    CheckResult :=
  match db.bloom_words.find? (approvedMatch word) with
  | some r => .approvedAt word r.suggested_level
  | none => .advisory (classify word)

/-- The Predict Question mode, lines 197-213 of the source:
`if question.strip():` run `predict_question` (lines 93-96, the opaque
classifier on the raw text) and `INSERT INTO questions`; otherwise warn
and change nothing. -/
def resolve_question (classify : Str → Str) (question : Str) (db : DB) :
    QuestionResult × DB :=
  if pyStrip question ≠ [] then
    let pred := classify question
    (.predicted pred,
     { db with questions := db.questions ++ [⟨question, pred⟩] })
  else
    (.emptyInput, db)

/-- The lexicon load, lines 28-32 of the source: both columns of
`bloom_verbs.csv` are stripped, rows with an empty verb or level are
dropped.  A row is a `(verb, bloom_level)` pair. -/
def loadLexicon (raw : List (Str × Str)) : List (Str × Str) :=
  (raw.map fun p => (pyStrip p.1, pyStrip p.2)).filter
    fun p => p.1 ≠ [] && p.2 ≠ []

/-- `get_similar_verbs(level)`, lines 34-37 of the source:
`level.strip().lower()` is compared against the lowered stored level
column; the matching rows' verbs are returned. -/
def get_similar_verbs (lex : List (Str × Str)) (level : Str) : List Str :=
  (lex.filter fun p => pyLower p.2 == pyLower (pyStrip level)).map Prod.fst

/-- One state transition of the store: any call of a mutating operation
with any arguments.  `check_or_predict_word` and `get_similar_verbs` are
read-only and do not change the store. -/
inductive Step : DB → DB → Prop where
  | submit (word level : Str) (u : Option Nat) (db : DB) :
      Step db (submit_word word level u db).2
  | question (classify : Str → Str) (q : Str) (db : DB) :
      Step db (resolve_question classify q db).2

/-- Store states reachable from the fresh database by any sequence of
operation calls. -/
inductive Reachable : DB → Prop where
  | init : Reachable initDB
  | step {db db' : DB} : Reachable db → Step db db' → Reachable db'

/-! ## Concrete data used by witnesses and counterexamples -/

/-- The word used in the spec's own scenario. -/
def wDesign : Str := ['d', 'e', 's', 'i', 'g', 'n']

/-- The level used in the spec's own scenario. -/
def lCreate : Str := ['c', 'r', 'e', 'a', 't', 'e']

/-- A second concrete word. -/
def wRun : Str := ['r', 'u', 'n']

/-- A concrete level. -/
def lApply : Str := ['a', 'p', 'p', 'l', 'y']

/-- A second concrete level. -/
def lAnalyze : Str := ['a', 'n', 'a', 'l', 'y', 'z', 'e']

/-- The store after users 1, ..., n have each voted once for
`(word, level)`, in that order, starting from the fresh store. -/
def iterVotes (word level : Str) : Nat → DB
  | 0 => initDB
  | k + 1 => (submit_word word level (some (k + 1)) (iterVotes word level k)).2

/-! ## Unfolding lemmas for `submit_word` -/

/-- No identified user: rejected, store untouched. -/
theorem submit_word_none (word level : Str) (db : DB) :
    submit_word word level none db = (.missingUser, db) := rfl

/-- Duplicate vote: rejected, store untouched. -/
theorem submit_word_dup (word level : Str) (u : Nat) (hu : u ≠ 0) (db : DB)
    (r : WordRecord)
    (hfind : db.bloom_words.find? (keyMatch word level) = some r)
    (hdup : db.votes.any (voteMatch u r.id) = true) :
    submit_word word level (some u) db = (.duplicateVote, db) := by
  simp [submit_word, hu, hfind, hdup]

/-- Accepted vote on an existing record: one vote inserted, count
incremented, approval recomputed against the threshold. -/
theorem submit_word_vote (word level : Str) (u : Nat) (hu : u ≠ 0) (db : DB)
    (r : WordRecord)
    (hfind : db.bloom_words.find? (keyMatch word level) = some r)
    (hdup : db.votes.any (voteMatch u r.id) = false) :
    submit_word word level (some u) db =
      (if 10 ≤ r.vote_count + 1 then SubmitResult.approvedNow word level
       else .voteRecorded word (r.vote_count + 1),
       updatedDB u r db) := by
  by_cases h10 : 10 ≤ r.vote_count + 1 <;>
    simp [submit_word, hu, hfind, hdup, h10]

/-- First vote for a fresh `(word, level)` pair: record created. -/
theorem submit_word_create (word level : Str) (u : Nat) (hu : u ≠ 0) (db : DB)
    (hfind : db.bloom_words.find? (keyMatch word level) = none) :
    submit_word word level (some u) db =
      (.created word, createdDB word level u db) := by
  simp [submit_word, hu, hfind]

/-- An identified user with user id 0 cannot occur, but the source's
falsiness check would also reject it without touching the store. -/
theorem submit_word_zero (word level : Str) (db : DB) :
    submit_word word level (some 0) db = (.missingUser, db) := by
  simp [submit_word]

/-- The row update of lines 145-149 keeps every row's id. -/
theorem updWord_id (r s : WordRecord) : (updWord r s).id = s.id := by
  by_cases h : (s.id == r.id) = true
  · have : s.id = r.id := by simpa using h
    simp [updWord, h, bumped, this]
  · simp [updWord, h]

/-- After the `UPDATE` of an accepted vote, the `SELECT` for the same
`(word, level)` key returns the updated row. -/
theorem find?_map_updWord (word level : Str) (r : WordRecord)
    (l : List WordRecord) (hfind : l.find? (keyMatch word level) = some r) :
    (l.map (updWord r)).find? (keyMatch word level) = some (bumped r) := by
  induction l with
  | nil => simp at hfind
  | cons a t ih =>
    by_cases hid : (a.id == r.id) = true
    · have hr : keyMatch word level r = true := List.find?_some hfind
      have hb : keyMatch word level (bumped r) = true := by
        simpa [keyMatch, bumped] using hr
      simp [List.find?_cons, updWord, hid, hb]
    · have ha : updWord r a = a := by simp [updWord, hid]
      by_cases hpa : keyMatch word level a = true
      · rw [List.find?_cons_of_pos _ hpa] at hfind
        have : a = r := by simpa using hfind
        subst this
        simp at hid
      · rw [List.find?_cons_of_neg _ hpa] at hfind
        have hpa' : keyMatch word level (updWord r a) = false := by
          simp [ha]
          simpa using hpa
        simp only [List.map_cons]
        rw [List.find?_cons_of_neg _ (by simp [hpa'])]
        exact ih hfind

/-! ## Claim C3 -/

/-- Claim C3: for every word, level and identified user, the first-ever
`submit_vote` call (no existing record for the pair) creates a
WordRecord with `vote_count = 1` and `approved = false`, records the
user's vote, and returns the Created outcome. -/
theorem submit_word_first_vote (word level : Str) (u : Nat) (db : DB)
    (hu : u ≠ 0)
    (hnew : ∀ r ∈ db.bloom_words,
      ¬ (r.word = word ∧ r.suggested_level = level)) :
    submit_word word level (some u) db =
      (.created word,
       { db with
         bloom_words := db.bloom_words ++
           [{ id := db.nextWordId, word := word, suggested_level := level,
              vote_count := 1, approved := false }],
         votes := db.votes ++ [⟨u, db.nextWordId⟩],
         nextWordId := db.nextWordId + 1 }) := by
  have hfind : db.bloom_words.find? (keyMatch word level) = none := by
    rw [List.find?_eq_none]
    intro r hr
    simpa [keyMatch] using hnew r hr
  rw [submit_word_create word level u hu db hfind]
  rfl

/-- Witness for C3 at the fresh store. -/
theorem submit_word_first_vote_witness :
    submit_word wDesign lCreate (some 1) initDB =
      (.created wDesign,
       { initDB with
         bloom_words := initDB.bloom_words ++
           [{ id := initDB.nextWordId, word := wDesign,
              suggested_level := lCreate, vote_count := 1,
              approved := false }],
         votes := initDB.votes ++ [⟨1, initDB.nextWordId⟩],
         nextWordId := initDB.nextWordId + 1 }) :=
  submit_word_first_vote wDesign lCreate 1 initDB (by decide) (by decide)

/-! ## Claim C2 -/

/-- Claim C2: after an accepted first vote (outcome neither MissingUser
nor DuplicateVote), repeating `submit_vote` with the same word, level
and user fails with the duplicate-vote rejection and leaves the store
exactly as it was: no vote row is inserted and the word record keeps
its count and approval flag. -/
theorem submit_word_duplicate_rejected (word level : Str) (u : Nat)
    (db db1 : DB) (o1 : SubmitResult)
    (hrun : submit_word word level (some u) db = (o1, db1))
    (haccept : o1 ≠ .missingUser ∧ o1 ≠ .duplicateVote) :
    submit_word word level (some u) db1 = (.duplicateVote, db1) := by
  have hu : u ≠ 0 := by
    intro h
    subst h
    rw [submit_word_zero] at hrun
    injection hrun with ho _
    exact haccept.1 ho.symm
  cases hfind : db.bloom_words.find? (keyMatch word level) with
  | none =>
    rw [submit_word_create word level u hu db hfind] at hrun
    injection hrun with ho hdb
    subst hdb
    refine submit_word_dup word level u hu _
      ⟨db.nextWordId, word, level, 1, false⟩ ?_ ?_
    · show ((createdDB word level u db).bloom_words).find?
        (keyMatch word level) = _
      simp [createdDB, List.find?_append, hfind, keyMatch]
    · simp [createdDB, voteMatch]
  | some r =>
    cases hdup : db.votes.any (voteMatch u r.id) with
    | true =>
      rw [submit_word_dup word level u hu db r hfind hdup] at hrun
      injection hrun with ho _
      exact absurd ho.symm haccept.2
    | false =>
      rw [submit_word_vote word level u hu db r hfind hdup] at hrun
      injection hrun with ho hdb
      subst hdb
      refine submit_word_dup word level u hu _ (bumped r) ?_ ?_
      · exact find?_map_updWord word level r db.bloom_words hfind
      · simp [updatedDB, voteMatch, bumped]

/-- Witness for C2: user 1 creates a record, then votes again. -/
theorem submit_word_duplicate_rejected_witness :
    submit_word wDesign lCreate (some 1)
        (createdDB wDesign lCreate 1 initDB) =
      (.duplicateVote, createdDB wDesign lCreate 1 initDB) :=
  submit_word_duplicate_rejected wDesign lCreate 1 initDB
    (createdDB wDesign lCreate 1 initDB) (.created wDesign)
    (by decide) (by decide)

/-! ## Claim C1 (corrected) -/

/-- Counterexample to C1 as stated: after users 1..10 have voted for
("design", "create") the record stands at 10 votes and is approved (and
the 10th call did return the Approved outcome), yet the accepted 11th
vote by the fresh user 11 returns the Approved outcome again, not
VoteRecorded — the approval notification is NOT fired exactly once. -/
theorem approved_message_repeats_counterexample :
    ((iterVotes wDesign lCreate 10).bloom_words.map
        fun r => (r.vote_count, r.approved)) = [(10, true)] ∧
    (submit_word wDesign lCreate (some 10) (iterVotes wDesign lCreate 9)).1 =
      .approvedNow wDesign lCreate ∧
    (submit_word wDesign lCreate (some 11) (iterVotes wDesign lCreate 10)).1 =
      .approvedNow wDesign lCreate ∧
    (submit_word wDesign lCreate (some 11) (iterVotes wDesign lCreate 10)).1 ≠
      .voteRecorded wDesign 11 := by
  decide

/-- Claim C1 as amended: an accepted vote on an existing record returns
the Approved outcome exactly when the resulting count reaches or
exceeds 10, and VoteRecorded otherwise.  Hence the call on which the
count first reaches 10 returns Approved, and so does every later
accepted vote on the already-approved record — the approval message is
repeated, never reverting to VoteRecorded. -/
theorem submit_word_threshold_outcome (word level : Str) (u : Nat) (db : DB)
    (r : WordRecord) (hu : u ≠ 0)
    (hfind : db.bloom_words.find? (keyMatch word level) = some r)
    (hnew : db.votes.any (voteMatch u r.id) = false) :
    (submit_word word level (some u) db).1 =
      if 10 ≤ r.vote_count + 1 then SubmitResult.approvedNow word level
      else .voteRecorded word (r.vote_count + 1) := by
  rw [submit_word_vote word level u hu db r hfind hnew]

/-- The record standing at 9 votes after users 1..9 voted. -/
def rec9 : WordRecord := ⟨1, wDesign, lCreate, 9, false⟩

/-- Witness for the amended C1: the 10th distinct user's vote crosses
the threshold and returns the Approved outcome. -/
theorem submit_word_threshold_outcome_witness :
    (submit_word wDesign lCreate (some 10) (iterVotes wDesign lCreate 9)).1 =
      if 10 ≤ rec9.vote_count + 1 then SubmitResult.approvedNow wDesign lCreate
      else .voteRecorded wDesign (rec9.vote_count + 1) :=
  submit_word_threshold_outcome wDesign lCreate 10
    (iterVotes wDesign lCreate 9) rec9 (by decide) (by decide) (by decide)

/-! ## Claim C4 -/

/-- Claim C4: if a word has at least one approved record, the check
returns the Approved outcome with the level of an approved record for
that word, for every classifier whatsoever (the ledger bypasses the
model); if the word has no approved record, the check returns the
classifier's advisory prediction. -/
theorem check_word_ledger_overrides_classifier (db : DB) (w : Str) :
    ((∃ r ∈ db.bloom_words, r.word = w ∧ r.approved = true) →
      ∃ l, (∃ r ∈ db.bloom_words,
              r.word = w ∧ r.approved = true ∧ r.suggested_level = l) ∧
        ∀ classify : Str → Str,
          check_or_predict_word classify db w = .approvedAt w l) ∧
    ((∀ r ∈ db.bloom_words, r.word = w → r.approved = false) →
      ∀ classify : Str → Str,
        check_or_predict_word classify db w = .advisory (classify w)) := by
  cases hfind : db.bloom_words.find? (approvedMatch w) with
  | some r =>
    have hp := List.find?_some hfind
    have hmem := List.mem_of_find?_eq_some hfind
    have hw : r.word = w ∧ r.approved = true := by
      simpa [approvedMatch] using hp
    constructor
    · intro _
      exact ⟨r.suggested_level, ⟨r, hmem, hw.1, hw.2, rfl⟩,
        fun classify => by simp [check_or_predict_word, hfind]⟩
    · intro hnone
      exact absurd (hnone r hmem hw.1) (by simp [hw.2])
  | none =>
    constructor
    · rintro ⟨r, hmem, hw, happ⟩
      have hnp := List.find?_eq_none.mp hfind r hmem
      exact absurd (by simp [approvedMatch, hw, happ]) hnp
    · intro _ classify
      simp [check_or_predict_word, hfind]

/-- Witness for C4 at a store where ("run", "apply") is approved. -/
theorem check_word_ledger_overrides_classifier_witness :
    (∃ r ∈ (iterVotes wRun lApply 10).bloom_words,
        r.word = wRun ∧ r.approved = true) ∧
    ∃ l, (∃ r ∈ (iterVotes wRun lApply 10).bloom_words,
            r.word = wRun ∧ r.approved = true ∧ r.suggested_level = l) ∧
      ∀ classify : Str → Str,
        check_or_predict_word classify (iterVotes wRun lApply 10) wRun =
          .approvedAt wRun l :=
  ⟨by decide,
   (check_word_ledger_overrides_classifier (iterVotes wRun lApply 10)
     wRun).1 (by decide)⟩

/-! ## Claim C5 (corrected) -/

/-- Counterexample to C5 as stated: at a reachable store where "run" is
approved at level "apply", checking the word "run " (trailing space)
does not give the same result as checking its trimmed form "run" — the
source performs no trimming before the ledger lookup. -/
theorem check_word_trim_counterexample :
    check_or_predict_word (fun _ => lCreate) (iterVotes wRun lApply 10)
        (wRun ++ [' ']) ≠
      check_or_predict_word (fun _ => lCreate) (iterVotes wRun lApply 10)
        (pyStrip (wRun ++ [' '])) := by
  decide

/-- Claim C5 as amended: the check performs no normalization at all —
the ledger lookup compares the stored word with the input exactly as
given (byte-for-byte, hence case- and whitespace-sensitive): the result
is advisory precisely when no record whose stored word equals the raw
input is approved, and an Approved answer always exhibits a record
whose stored word equals the raw input. -/
theorem check_word_exact_lookup (db : DB) (classify : Str → Str) (w : Str) :
    (check_or_predict_word classify db w = .advisory (classify w) ↔
      ∀ r ∈ db.bloom_words, r.word = w → r.approved = false) ∧
    (∀ l, check_or_predict_word classify db w = .approvedAt w l →
      ∃ r ∈ db.bloom_words, r.word = w ∧ r.approved = true ∧
        r.suggested_level = l) := by
  cases hfind : db.bloom_words.find? (approvedMatch w) with
  | some r =>
    have hp := List.find?_some hfind
    have hmem := List.mem_of_find?_eq_some hfind
    have hw : r.word = w ∧ r.approved = true := by
      simpa [approvedMatch] using hp
    constructor
    · constructor
      · intro heq
        simp [check_or_predict_word, hfind] at heq
      · intro hnone
        exact absurd (hnone r hmem hw.1) (by simp [hw.2])
    · intro l heq
      simp [check_or_predict_word, hfind] at heq
      exact ⟨r, hmem, hw.1, hw.2, heq⟩
  | none =>
    have hall : ∀ r ∈ db.bloom_words, r.word = w → r.approved = false := by
      intro r hr hw
      have hnp := List.find?_eq_none.mp hfind r hr
      cases happ : r.approved
      · rfl
      · exact absurd (by simp [approvedMatch, hw, happ]) hnp
    refine ⟨⟨fun _ => hall, fun _ => by simp [check_or_predict_word, hfind]⟩,
      fun l heq => ?_⟩
    simp [check_or_predict_word, hfind] at heq

/-- Witness for the amended C5 at a concrete store. -/
theorem check_word_exact_lookup_witness :
    check_or_predict_word (fun _ => lCreate) (iterVotes wRun lApply 10)
        (wRun ++ [' ']) =
      .advisory ((fun _ => lCreate) (wRun ++ [' '])) ↔
    ∀ r ∈ (iterVotes wRun lApply 10).bloom_words,
      r.word = wRun ++ [' '] → r.approved = false :=
  (check_word_exact_lookup (iterVotes wRun lApply 10) (fun _ => lCreate)
    (wRun ++ [' '])).1

/-! ## Claim C8 -/

/-- Claim C8: blank input (trimmed text empty) is rejected with the
empty-input warning and the store is untouched — no QuestionEntry is
appended; non-blank input invokes the classifier and appends exactly
one QuestionEntry carrying the predicted category. -/
theorem resolve_question_empty_input (classify : Str → Str) (q : Str)
    (db : DB) :
    (pyStrip q = [] → resolve_question classify q db = (.emptyInput, db)) ∧
    (pyStrip q ≠ [] → resolve_question classify q db =
      (.predicted (classify q),
       { db with questions := db.questions ++ [⟨q, classify q⟩] })) := by
  constructor <;> intro h <;> simp [resolve_question, h]

/-- Witness for C8: a whitespace-only question and a real one. -/
theorem resolve_question_empty_input_witness :
    (pyStrip [' ', '\t'] = [] ∧
      resolve_question (fun _ => lCreate) [' ', '\t'] initDB =
        (.emptyInput, initDB)) ∧
    (pyStrip wRun ≠ [] ∧
      resolve_question (fun _ => lCreate) wRun initDB =
        (.predicted ((fun _ : Str => lCreate) wRun),
         { initDB with
           questions := initDB.questions ++
             [⟨wRun, (fun _ : Str => lCreate) wRun⟩] })) :=
  ⟨⟨by decide, (resolve_question_empty_input (fun _ => lCreate)
      [' ', '\t'] initDB).1 (by decide)⟩,
   ⟨by decide, (resolve_question_empty_input (fun _ => lCreate)
      wRun initDB).2 (by decide)⟩⟩

/-! ## The store invariant -/

/-- The `WHERE word_id=?` filter counting the votes that reference a
given `bloom_words` row. -/
def votesFor (wid : Nat) (v : VoteRecord) : Bool :=
  v.word_id == wid

/-- Invariant maintained by every operation of the program on the
store reachable from the fresh database. -/
structure StoreInv (db : DB) : Prop where
  /-- Every word row id is below the next fresh rowid. -/
  id_lt : ∀ r ∈ db.bloom_words, r.id < db.nextWordId
  /-- Every vote references an id below the next fresh rowid. -/
  vote_lt : ∀ v ∈ db.votes, v.word_id < db.nextWordId
  /-- Word row ids are pairwise distinct. -/
  ids_nodup : db.bloom_words.Pairwise fun a b => a.id ≠ b.id
  /-- No two word rows share the same (word, suggested_level) key. -/
  keys_nodup : db.bloom_words.Pairwise fun a b =>
    ¬ (a.word = b.word ∧ a.suggested_level = b.suggested_level)
  /-- The approval flag equals the threshold test on the count. -/
  approved_iff : ∀ r ∈ db.bloom_words,
    r.approved = decide (10 ≤ r.vote_count)
  /-- The stored count equals the number of votes referencing the row. -/
  count_eq : ∀ r ∈ db.bloom_words,
    r.vote_count = db.votes.countP (votesFor r.id)

/-- The fresh store satisfies the invariant. -/
theorem inv_init : StoreInv initDB := by
  refine ⟨?_, ?_, ?_, ?_, ?_, ?_⟩ <;> simp [initDB]

/-- With pairwise-distinct ids, a shared id forces equal rows. -/
theorem eq_of_mem_ids {l : List WordRecord}
    (h : l.Pairwise fun a b => a.id ≠ b.id) {a b : WordRecord}
    (ha : a ∈ l) (hb : b ∈ l) (hid : a.id = b.id) : a = b := by
  by_contra hne
  have hsym : Symmetric fun a b : WordRecord => a.id ≠ b.id :=
    fun x y hxy e => hxy e.symm
  exact List.Pairwise.forall hsym h ha hb hne hid

/-- The invariant survives the record-creating branch of a vote. -/
theorem inv_createdDB (word level : Str) (uid : Nat) {db : DB} (h : StoreInv db)
    (hfind : db.bloom_words.find? (keyMatch word level) = none) :
    StoreInv (createdDB word level uid db) := by
  obtain ⟨h1, h2, h3, h4, h5, h6⟩ := h
  have hkey : ∀ r ∈ db.bloom_words, ¬ keyMatch word level r = true :=
    List.find?_eq_none.mp hfind
  refine ⟨?_, ?_, ?_, ?_, ?_, ?_⟩
  · intro r hr
    rcases List.mem_append.mp hr with hr | hr
    · exact Nat.lt_succ_of_lt (h1 r hr)
    · rw [List.mem_singleton] at hr
      subst hr
      exact Nat.lt_succ_self _
  · intro v hv
    rcases List.mem_append.mp hv with hv | hv
    · exact Nat.lt_succ_of_lt (h2 v hv)
    · rw [List.mem_singleton] at hv
      subst hv
      exact Nat.lt_succ_self _
  · rw [show (createdDB word level uid db).bloom_words =
      db.bloom_words ++ [⟨db.nextWordId, word, level, 1, false⟩] from rfl,
      List.pairwise_append]
    refine ⟨h3, List.pairwise_singleton _ _, ?_⟩
    intro a ha b hb
    rw [List.mem_singleton] at hb
    subst hb
    exact Nat.ne_of_lt (h1 a ha)
  · rw [show (createdDB word level uid db).bloom_words =
      db.bloom_words ++ [⟨db.nextWordId, word, level, 1, false⟩] from rfl,
      List.pairwise_append]
    refine ⟨h4, List.pairwise_singleton _ _, ?_⟩
    intro a ha b hb
    rw [List.mem_singleton] at hb
    subst hb
    rintro ⟨hw, hl⟩
    exact hkey a ha (by simp [keyMatch, hw, hl])
  · intro r hr
    rcases List.mem_append.mp hr with hr | hr
    · exact h5 r hr
    · rw [List.mem_singleton] at hr
      subst hr
      rfl
  · intro r hr
    rcases List.mem_append.mp hr with hr | hr
    · rw [show (createdDB word level uid db).votes =
        db.votes ++ [⟨uid, db.nextWordId⟩] from rfl, List.countP_append,
        List.countP_singleton]
      have hne : ¬ votesFor r.id (⟨uid, db.nextWordId⟩ : VoteRecord) = true := by
        simp [votesFor]
        exact Nat.ne_of_gt (h1 r hr)
      rw [if_neg hne]
      exact h6 r hr
    · rw [List.mem_singleton] at hr
      subst hr
      rw [show (createdDB word level uid db).votes =
        db.votes ++ [⟨uid, db.nextWordId⟩] from rfl, List.countP_append,
        List.countP_singleton]
      have hz : db.votes.countP (votesFor db.nextWordId) = 0 := by
        rw [List.countP_eq_zero]
        intro v hv
        simp [votesFor]
        exact Nat.ne_of_lt (h2 v hv)
      rw [hz, if_pos (by simp [votesFor])]

/-- Updated rows keep their word and level (given id uniqueness). -/
theorem updWord_key_eq {db : DB} (h3 : db.bloom_words.Pairwise
      fun a b => a.id ≠ b.id) {r : WordRecord} (hmem : r ∈ db.bloom_words)
    {s : WordRecord} (hs : s ∈ db.bloom_words) :
    (updWord r s).word = s.word ∧
    (updWord r s).suggested_level = s.suggested_level := by
  by_cases hsr : (s.id == r.id) = true
  · have : s = r := eq_of_mem_ids h3 hs hmem (by simpa using hsr)
    subst this
    simp [updWord, bumped]
  · simp [updWord, hsr]

/-- The invariant survives the vote-accepting update branch. -/
theorem inv_updatedDB (uid : Nat) {r : WordRecord} {db : DB}
    (h : StoreInv db) (hmem : r ∈ db.bloom_words) :
    StoreInv (updatedDB uid r db) := by
  obtain ⟨h1, h2, h3, h4, h5, h6⟩ := h
  refine ⟨?_, ?_, ?_, ?_, ?_, ?_⟩
  · intro x hx
    rcases List.mem_map.mp hx with ⟨s, hs, rfl⟩
    rw [updWord_id]
    exact h1 s hs
  · intro v hv
    rcases List.mem_append.mp hv with hv | hv
    · exact h2 v hv
    · rw [List.mem_singleton] at hv
      subst hv
      exact h1 r hmem
  · rw [show (updatedDB uid r db).bloom_words =
      db.bloom_words.map (updWord r) from rfl, List.pairwise_map]
    exact h3.imp fun hab => by rw [updWord_id, updWord_id]; exact hab
  · rw [show (updatedDB uid r db).bloom_words =
      db.bloom_words.map (updWord r) from rfl, List.pairwise_map]
    refine h4.imp_of_mem ?_
    intro a b ha hb hab
    rw [(updWord_key_eq h3 hmem ha).1, (updWord_key_eq h3 hmem ha).2,
      (updWord_key_eq h3 hmem hb).1, (updWord_key_eq h3 hmem hb).2]
    exact hab
  · intro x hx
    rcases List.mem_map.mp hx with ⟨s, hs, rfl⟩
    by_cases hsr : (s.id == r.id) = true
    · have : s = r := eq_of_mem_ids h3 hs hmem (by simpa using hsr)
      subst this
      simp [updWord, bumped]
    · simp only [updWord, hsr, Bool.false_eq_true, if_false]
      exact h5 s hs
  · intro x hx
    rcases List.mem_map.mp hx with ⟨s, hs, rfl⟩
    rw [show (updatedDB uid r db).votes =
      db.votes ++ [⟨uid, r.id⟩] from rfl, List.countP_append,
      List.countP_singleton]
    by_cases hsr : (s.id == r.id) = true
    · have hse : s = r := eq_of_mem_ids h3 hs hmem (by simpa using hsr)
      subst hse
      have hup : updWord s s = bumped s := by simp [updWord]
      rw [hup]
      have hid : (bumped s).id = s.id := rfl
      rw [hid, if_pos (by simp [votesFor])]
      have hcnt : (bumped s).vote_count = s.vote_count + 1 := rfl
      rw [hcnt, h6 s hs]
    · have hup : updWord r s = s := by simp [updWord, hsr]
      rw [hup]
      have hne : ¬ votesFor s.id (⟨uid, r.id⟩ : VoteRecord) = true := by
        simp [votesFor]
        intro he
        exact absurd (by simp [he]) hsr
      rw [if_neg hne, Nat.add_zero]
      exact h6 s hs

/-- Predicting a question only appends to the question log and keeps
the invariant. -/
theorem inv_resolve_question (classify : Str → Str) (q : Str) {db : DB}
    (h : StoreInv db) : StoreInv (resolve_question classify q db).2 := by
  obtain ⟨h1, h2, h3, h4, h5, h6⟩ := h
  unfold resolve_question
  split
  · exact ⟨h1, h2, h3, h4, h5, h6⟩
  · exact ⟨h1, h2, h3, h4, h5, h6⟩

/-- Every operation of the program preserves the store invariant. -/
theorem inv_step {db db' : DB} (h : StoreInv db) (hs : Step db db') :
    StoreInv db' := by
  cases hs with
  | submit word level u db =>
    cases u with
    | none => exact h
    | some uid =>
      by_cases h0 : uid = 0
      · subst h0
        rw [submit_word_zero]
        exact h
      · cases hfind : db.bloom_words.find? (keyMatch word level) with
        | none =>
          rw [submit_word_create word level uid h0 db hfind]
          exact inv_createdDB word level uid h hfind
        | some r =>
          cases hdup : db.votes.any (voteMatch uid r.id) with
          | true =>
            rw [submit_word_dup word level uid h0 db r hfind hdup]
            exact h
          | false =>
            rw [submit_word_vote word level uid h0 db r hfind hdup]
            exact inv_updatedDB uid h (List.mem_of_find?_eq_some hfind)
  | question classify q db => exact inv_resolve_question classify q h

/-- Every reachable store satisfies the invariant. -/
theorem reachable_inv {db : DB} (h : Reachable db) : StoreInv db := by
  induction h with
  | init => exact inv_init
  | step _ hs ih => exact inv_step ih hs

/-- The vote-iteration states are reachable. -/
theorem reachable_iterVotes (word level : Str) (n : Nat) :
    Reachable (iterVotes word level n) := by
  induction n with
  | zero => exact .init
  | succ k ih => exact .step ih (.submit word level (some (k + 1)) _)

/-- Across one operation, a surviving row (same id) never loses votes. -/
theorem step_vote_mono {db db' : DB} (hinv : StoreInv db)
    (hs : Step db db') {r : WordRecord} (hr : r ∈ db.bloom_words)
    {x : WordRecord} (hx : x ∈ db'.bloom_words) (hid : x.id = r.id) :
    r.vote_count ≤ x.vote_count := by
  obtain ⟨h1, h2, h3, h4, h5, h6⟩ := hinv
  have base : ∀ y ∈ db.bloom_words, y.id = r.id →
      r.vote_count ≤ y.vote_count := by
    intro y hy hyid
    rw [eq_of_mem_ids h3 hy hr hyid]
  cases hs with
  | submit word level u db =>
    cases u with
    | none => exact base x hx hid
    | some uid =>
      by_cases h0 : uid = 0
      · subst h0
        rw [submit_word_zero] at hx
        exact base x hx hid
      · cases hfind : db.bloom_words.find? (keyMatch word level) with
        | none =>
          rw [submit_word_create word level uid h0 db hfind] at hx
          rcases List.mem_append.mp hx with hx | hx
          · exact base x hx hid
          · rw [List.mem_singleton] at hx
            subst hx
            exact absurd hid.symm (Nat.ne_of_lt (h1 r hr))
        | some r0 =>
          have hmem0 := List.mem_of_find?_eq_some hfind
          cases hdup : db.votes.any (voteMatch uid r0.id) with
          | true =>
            rw [submit_word_dup word level uid h0 db r0 hfind hdup] at hx
            exact base x hx hid
          | false =>
            rw [submit_word_vote word level uid h0 db r0 hfind hdup] at hx
            rcases List.mem_map.mp hx with ⟨s, hs', rfl⟩
            by_cases hsr : (s.id == r0.id) = true
            · have hse : s = r0 := eq_of_mem_ids h3 hs' hmem0
                (by simpa using hsr)
              subst hse
              have hxid : (updWord s s).id = s.id := updWord_id s s
              rw [hxid] at hid
              have : s = r := eq_of_mem_ids h3 hs' hr hid
              subst this
              have : updWord s s = bumped s := by simp [updWord]
              rw [this]
              exact Nat.le_succ _
            · have : updWord r0 s = s := by simp [updWord, hsr]
              rw [this] at hid ⊢
              exact base s hs' hid
  | question classify q db =>
    have hx' : x ∈ db.bloom_words := by
      have : (resolve_question classify q db).2.bloom_words =
          db.bloom_words := by
        unfold resolve_question
        split <;> rfl
      rw [this] at hx
      exact hx
    exact base x hx' hid

/-! ## Claim C6 -/

/-- Claim C6: on every reachable store, a record is flagged approved
exactly when its vote count has reached the threshold 10, and approval
is monotonic — once a record is approved, after any further operation
the record with that id is still approved. -/
theorem approved_threshold_invariant (db : DB) (h : Reachable db) :
    (∀ r ∈ db.bloom_words, r.approved = decide (10 ≤ r.vote_count)) ∧
    (∀ db', Step db db' → ∀ r ∈ db.bloom_words, r.approved = true →
      ∀ x ∈ db'.bloom_words, x.id = r.id → x.approved = true) := by
  have hinv := reachable_inv h
  refine ⟨hinv.approved_iff, ?_⟩
  intro db' hs r hr happ x hx hid
  have hinv' := inv_step hinv hs
  have hcnt := step_vote_mono hinv hs hr hx hid
  have h10 : 10 ≤ r.vote_count := by
    have hai := hinv.approved_iff r hr
    rw [happ] at hai
    exact of_decide_eq_true hai.symm
  rw [hinv'.approved_iff x hx]
  exact decide_eq_true (Nat.le_trans h10 hcnt)

/-- Witness for C6 at the store where ("design", "create") has exactly
10 votes. -/
theorem approved_threshold_invariant_witness :
    (⟨1, wDesign, lCreate, 10, true⟩ : WordRecord).approved =
      decide (10 ≤ (⟨1, wDesign, lCreate, 10, true⟩ : WordRecord).vote_count) :=
  (approved_threshold_invariant (iterVotes wDesign lCreate 10)
    (reachable_iterVotes wDesign lCreate 10)).1
    ⟨1, wDesign, lCreate, 10, true⟩ (by decide)

/-! ## Claim C9 -/

/-- A list with pairwise-distinct (word, level) keys holds at most one
row matching any given key. -/
theorem countP_key_le_one {l : List WordRecord} (word level : Str)
    (h : l.Pairwise fun a b =>
      ¬ (a.word = b.word ∧ a.suggested_level = b.suggested_level)) :
    l.countP (keyMatch word level) ≤ 1 := by
  induction l with
  | nil => simp
  | cons a t ih =>
    rcases List.pairwise_cons.mp h with ⟨ha, ht⟩
    by_cases hp : keyMatch word level a = true
    · have hz : t.countP (keyMatch word level) = 0 := by
        rw [List.countP_eq_zero]
        intro b hb hpb
        simp [keyMatch] at hp hpb
        exact ha b hb ⟨hp.1.trans hpb.1.symm, hp.2.trans hpb.2.symm⟩
      rw [List.countP_cons_of_pos _ _ hp, hz]
    · rw [List.countP_cons_of_neg _ _ hp]
      exact ih ht

/-- Claim C9: on every reachable store there is at most one word record
per literal (word, suggested_level) pair; at the same time the same
word can hold independent records under different suggested levels (a
reachable store exhibits two). -/
theorem word_level_unique_records :
    (∀ db, Reachable db → ∀ word level : Str,
      db.bloom_words.countP (keyMatch word level) ≤ 1) ∧
    (∃ db, Reachable db ∧ ∃ r1 ∈ db.bloom_words, ∃ r2 ∈ db.bloom_words,
      r1.word = r2.word ∧ r1.suggested_level ≠ r2.suggested_level) := by
  constructor
  · intro db h word level
    exact countP_key_le_one word level (reachable_inv h).keys_nodup
  · refine ⟨(submit_word wRun lApply (some 1)
      ((submit_word wRun lAnalyze (some 1) initDB).2)).2, ?_, ?_⟩
    · exact .step (.step .init (.submit wRun lAnalyze (some 1) initDB))
        (.submit wRun lApply (some 1) _)
    · decide

/-- Witness for C9 at a concrete reachable store. -/
theorem word_level_unique_records_witness :
    (iterVotes wDesign lCreate 3).bloom_words.countP
      (keyMatch wDesign lCreate) ≤ 1 :=
  word_level_unique_records.1 (iterVotes wDesign lCreate 3)
    (reachable_iterVotes wDesign lCreate 3) wDesign lCreate

/-! ## Claim C10 -/

/-- A rejected vote call (missing user or duplicate) returns the store
unchanged. -/
theorem submit_word_rejected_no_change (word level : Str) (u : Option Nat)
    (db : DB)
    (h : (submit_word word level u db).1 = .missingUser ∨
         (submit_word word level u db).1 = .duplicateVote) :
    (submit_word word level u db).2 = db := by
  cases u with
  | none => rfl
  | some uid =>
    by_cases h0 : uid = 0
    · subst h0
      rw [submit_word_zero]
    · cases hfind : db.bloom_words.find? (keyMatch word level) with
      | none =>
        exfalso
        rcases h with h | h <;>
          rw [submit_word_create word level uid h0 db hfind] at h <;>
          simp at h
      | some r =>
        cases hdup : db.votes.any (voteMatch uid r.id) with
        | true => rw [submit_word_dup word level uid h0 db r hfind hdup]
        | false =>
          exfalso
          rcases h with h | h <;>
            rw [submit_word_vote word level uid h0 db r hfind hdup] at h <;>
            by_cases h10 : 10 ≤ r.vote_count + 1 <;>
            simp [h10] at h

/-- An accepted vote call inserts exactly one vote row. -/
theorem submit_word_accepted_one_vote (word level : Str) (u : Option Nat)
    (db : DB)
    (h : (submit_word word level u db).1 ≠ .missingUser ∧
         (submit_word word level u db).1 ≠ .duplicateVote) :
    ((submit_word word level u db).2).votes.length =
      db.votes.length + 1 := by
  cases u with
  | none => exact absurd rfl h.1
  | some uid =>
    by_cases h0 : uid = 0
    · subst h0
      exact absurd (by rw [submit_word_zero]) h.1
    · cases hfind : db.bloom_words.find? (keyMatch word level) with
      | none =>
        rw [submit_word_create word level uid h0 db hfind]
        simp [createdDB]
      | some r =>
        cases hdup : db.votes.any (voteMatch uid r.id) with
        | true =>
          exact absurd
            (by rw [submit_word_dup word level uid h0 db r hfind hdup]) h.2
        | false =>
          rw [submit_word_vote word level uid h0 db r hfind hdup]
          simp [updatedDB]

/-- Claim C10: on every reachable store each record's vote count equals
the number of vote rows referencing it; a rejected vote call changes
nothing, and an accepted vote call inserts exactly one vote row. -/
theorem vote_count_matches_votes (db : DB) (h : Reachable db) :
    (∀ r ∈ db.bloom_words,
      r.vote_count = db.votes.countP (votesFor r.id)) ∧
    (∀ word level u,
      ((submit_word word level u db).1 = .missingUser ∨
       (submit_word word level u db).1 = .duplicateVote) →
      (submit_word word level u db).2 = db) ∧
    (∀ word level u,
      ((submit_word word level u db).1 ≠ .missingUser ∧
       (submit_word word level u db).1 ≠ .duplicateVote) →
      ((submit_word word level u db).2).votes.length =
        db.votes.length + 1) :=
  ⟨(reachable_inv h).count_eq,
   fun word level u => submit_word_rejected_no_change word level u db,
   fun word level u => submit_word_accepted_one_vote word level u db⟩

/-- Witness for C10 at the store after three votes. -/
theorem vote_count_matches_votes_witness :
    (⟨1, wDesign, lCreate, 3, false⟩ : WordRecord).vote_count =
      (iterVotes wDesign lCreate 3).votes.countP
        (votesFor (⟨1, wDesign, lCreate, 3, false⟩ : WordRecord).id) :=
  (vote_count_matches_votes (iterVotes wDesign lCreate 3)
    (reachable_iterVotes wDesign lCreate 3)).1
    ⟨1, wDesign, lCreate, 3, false⟩ (by decide)

/-! ## Claim C7 -/

/-- The head surviving a `dropWhile` fails the dropped predicate. -/
theorem head?_dropWhile_false {α : Type} (p : α → Bool) (l : List α) :
    ∀ x, (l.dropWhile p).head? = some x → p x = false := by
  induction l with
  | nil =>
    intro x hx
    simp at hx
  | cons a t ih =>
    intro x hx
    by_cases ha : p a = true
    · rw [List.dropWhile_cons_of_pos ha] at hx
      exact ih x hx
    · rw [List.dropWhile_cons_of_neg ha] at hx
      have hax : a = x := by simpa using hx
      subst hax
      cases hpa : p a
      · rfl
      · exact absurd hpa ha

/-- A list whose head fails the predicate is fixed by `dropWhile`. -/
theorem dropWhile_eq_self_of_head {α : Type} {p : α → Bool} {l : List α}
    (h : ∀ x, l.head? = some x → p x = false) : l.dropWhile p = l := by
  cases l with
  | nil => rfl
  | cons a t =>
    have ha := h a rfl
    rw [List.dropWhile_cons_of_neg (by simp [ha])]

/-- Dropping from the right end cannot expose a leading character that
the left-end pass would have removed. -/
theorem dropWhile_rdropWhile {α : Type} (p : α → Bool) (s : List α) :
    ((s.dropWhile p).rdropWhile p).dropWhile p =
      (s.dropWhile p).rdropWhile p := by
  apply dropWhile_eq_self_of_head
  intro x hx
  obtain ⟨t, ht⟩ := List.rdropWhile_prefix p (s.dropWhile p)
  rcases hb : (s.dropWhile p).rdropWhile p with _ | ⟨y, b⟩
  · rw [hb] at hx
    simp at hx
  · rw [hb] at hx ht
    have hyx : y = x := by simpa using hx
    subst hyx
    apply head?_dropWhile_false p s
    rw [← ht]
    rfl

/-- Python's `strip` is idempotent. -/
theorem pyStrip_idem (s : Str) : pyStrip (pyStrip s) = pyStrip s := by
  unfold pyStrip
  rw [dropWhile_rdropWhile, List.rdropWhile_idempotent]

/-- Claim C7: `get_similar_verbs` matches the level case-insensitively
(its result depends only on the stripped, lowered query); every level
present in the loaded lexicon yields a non-empty verb list; an unknown
level string yields the empty list (and, being a total function, never
an error). -/
theorem get_similar_verbs_lookup (raw : List (Str × Str)) (s : Str) :
    (∀ t : Str, pyLower (pyStrip t) = pyLower (pyStrip s) →
      get_similar_verbs (loadLexicon raw) t =
        get_similar_verbs (loadLexicon raw) s) ∧
    ((∃ v : Str, (v, s) ∈ loadLexicon raw) →
      get_similar_verbs (loadLexicon raw) s ≠ []) ∧
    ((∀ q ∈ loadLexicon raw, pyLower q.2 ≠ pyLower (pyStrip s)) →
      get_similar_verbs (loadLexicon raw) s = []) := by
  refine ⟨?_, ?_, ?_⟩
  · intro t ht
    simp [get_similar_verbs, ht]
  · rintro ⟨v, hv⟩
    have hs : pyStrip s = s := by
      rcases List.mem_filter.mp hv with ⟨hmap, _⟩
      rcases List.mem_map.mp hmap with ⟨q, _, hq⟩
      have hq2 := congrArg Prod.snd hq
      simp only at hq2
      rw [← hq2, pyStrip_idem]
    apply List.ne_nil_of_mem (a := v)
    apply List.mem_map.mpr
    refine ⟨(v, s), List.mem_filter.mpr ⟨hv, ?_⟩, rfl⟩
    simp [hs]
  · intro hnone
    unfold get_similar_verbs
    have hz : (loadLexicon raw).filter
        (fun q => pyLower q.2 == pyLower (pyStrip s)) = [] := by
      rw [List.filter_eq_nil_iff]
      intro q hq
      simpa using hnone q hq
    rw [hz]
    rfl

/-- A concrete raw verb table: rows get stripped and the empty-verb row
is dropped at load. -/
def rawLex : List (Str × Str) :=
  [([' ', 'r', 'u', 'n'], [' ', 'A', 'p', 'p', 'l', 'y']),
   (['l', 'i', 's', 't'], ['r', 'e', 'm', 'e', 'm', 'b', 'e', 'r']),
   ([], ['a', 'p', 'p', 'l', 'y'])]

/-- Witness for C7: the level "Apply" is present in the loaded lexicon
(stored stripped), so its verb list is non-empty. -/
theorem get_similar_verbs_lookup_witness :
    get_similar_verbs (loadLexicon rawLex)
      ['A', 'p', 'p', 'l', 'y'] ≠ [] :=
  (get_similar_verbs_lookup rawLex ['A', 'p', 'p', 'l', 'y']).2.1
    ⟨['r', 'u', 'n'], by decide⟩
